import Mathlib

/-!
Verification of the `compute_sales` repository (Axga01/A01796384_A5.2).

The repository holds two variants of the same Python utility:
`src/compute_sales.py` (the defensive variant, with a separate
`_validate_row` helper and a warnings list) and `src/computeSales.py`
(the inline variant).  Both read a price catalogue and a sales record,
validate rows, and accumulate `price * quantity` over accepted rows.

This file shallowly embeds the parsed-JSON data model and the pure
pipeline functions of both variants, and proves / refutes the frozen
claims about them.  Python float values are embedded as rationals; the
aggregator is modelled twice: `computeLoop` accumulates the exact
rational value, and `computeLoop64` rounds every product and running
sum to binary64 (`round64`), which is decisive for order-sensitivity of
the total.  Python `str.strip` is modelled by `pyStrip`;
Python dicts appear only through `get`/`in`/`[]`/overwrite, modelled
on association lists.
-/

namespace SalesSpec

/-- Parsed JSON values as produced by the Python function `json.load`:
`None`, `bool`, `int`, `float`, `str`, `list`, `dict`.
Floats are modelled as exact rationals. -/
inductive JVal where
  | null : JVal
  | jbool : Bool → JVal
  | jint : Int → JVal
  | jfloat : ℚ → JVal
  | jstr : String → JVal
  | jlist : List JVal → JVal
  | jobj : List (String × JVal) → JVal

/-- Model of `d.get(k)` on a parsed JSON object: the value of the last binding of
`k` (later duplicate keys win in `json.load`), or `None` when absent. -/
def jget (fs : List (String × JVal)) (k : String) : JVal :=
  ((fs.reverse).lookup k).getD JVal.null

/-- Python `str(v)` as it appears interpolated into warning messages.
Exact for `None`, booleans, integers and strings (the only cases the
claims exercise); abbreviated for floats and containers. -/
def pyStr : JVal → String
  | JVal.null => "None"
  | JVal.jbool true => "True"
  | JVal.jbool false => "False"
  | JVal.jint n => toString n
  | JVal.jfloat q => toString q
  | JVal.jstr s => s
  | JVal.jlist _ => "[...]"
  | JVal.jobj _ => "\x7b...\x7d"

/-- Value of a digit list, most significant first. -/
def digitsToNat (cs : List Char) : Nat :=
  cs.foldl (fun n c => 10 * n + (c.toNat - 48)) 0

/-- Python `str.strip()`: remove leading and trailing whitespace.
(Defined on the character list so that it reduces in the kernel.) -/
def pyStrip (s : String) : String :=
  String.mk (((s.data.dropWhile Char.isWhitespace).reverse.dropWhile Char.isWhitespace).reverse)

/-- Python `int(s)` on a string: optional surrounding whitespace,
optional sign, then one or more decimal digits (digit-group
underscores and non-ASCII digits are not modelled). -/
def parseIntString (s : String) : Option Int :=
  match ((pyStrip s)).toList with
  | [] => none
  | c :: rest =>
    if c = '-' then
      if rest ≠ [] ∧ rest.all Char.isDigit then some (-(digitsToNat rest : Int)) else none
    else if c = '+' then
      if rest ≠ [] ∧ rest.all Char.isDigit then some (digitsToNat rest : Int) else none
    else
      if (c :: rest).all Char.isDigit then some (digitsToNat (c :: rest) : Int) else none

/-- Unsigned decimal of the form `digits`, `digits.`, `.digits` or
`digits.digits` (exponents, `inf` and `nan` are not modelled). -/
def parseUnsignedFloat (cs : List Char) : Option ℚ :=
  let intPart := cs.takeWhile Char.isDigit
  match cs.dropWhile Char.isDigit with
  | [] => if intPart = [] then none else some (digitsToNat intPart : ℚ)
  | c :: frac =>
    if c = '.' ∧ frac.all Char.isDigit ∧ (intPart ≠ [] ∨ frac ≠ []) then
      some ((digitsToNat intPart : ℚ) + (digitsToNat frac : ℚ) / (10 ^ frac.length))
    else none

/-- Python `float(s)` on a string: optional surrounding whitespace and
sign around an unsigned decimal. -/
def parseFloatString (s : String) : Option ℚ :=
  match ((pyStrip s)).toList with
  | [] => none
  | c :: rest =>
    if c = '-' then (parseUnsignedFloat rest).map (fun q => -q)
    else if c = '+' then parseUnsignedFloat rest
    else parseUnsignedFloat (c :: rest)

/-- Rational truncation toward zero, the behaviour of Python `int(float)`. -/
def ratTrunc (q : ℚ) : Int :=
  if q < 0 then -((-q).floor) else q.floor

/-- Python `int(x)`: `some` on success, `none` when `int()` raises
`TypeError` or `ValueError`. -/
def pyInt : JVal → Option Int
  | JVal.jbool b => some (if b then 1 else 0)
  | JVal.jint n => some n
  | JVal.jfloat q => some (ratTrunc q)
  | JVal.jstr s => parseIntString s
  | _ => none

/-- Python `float(x)`: `some` on success, `none` when `float()` raises
`TypeError` or `ValueError`. -/
def pyFloat : JVal → Option ℚ
  | JVal.jbool b => some (if b then 1 else 0)
  | JVal.jint n => some (n : ℚ)
  | JVal.jfloat q => some q
  | JVal.jstr s => parseFloatString s
  | _ => none

/-- Bit length of a natural number, fuel-based so that it reduces in the
kernel: `bitlenAux fuel n` is the number of binary digits of `n` (0 for 0). -/
def bitlenAux : Nat → Nat → Nat
  | 0, _ => 0
  | fuel + 1, n => if n = 0 then 0 else 1 + bitlenAux fuel (n / 2)

/-- Number of binary digits of `n`; for `n > 0`,
`2 ^ (bitlen n - 1) ≤ n < 2 ^ bitlen n`. -/
def bitlen (n : Nat) : Nat :=
  bitlenAux n n

/-- The rational `2 ^ e` for an integer exponent. -/
def ratPow2 (e : Int) : ℚ :=
  if 0 ≤ e then ((2 ^ e.toNat : Nat) : ℚ) else 1 / ((2 ^ (-e).toNat : Nat) : ℚ)

/-- Floor of the base-2 logarithm of a positive rational, computed from
the bit lengths of numerator and denominator. -/
def ratLog2 (q : ℚ) : Int :=
  let d : Int := (bitlen q.num.natAbs : Int) - (bitlen q.den : Int)
  if q < ratPow2 d then d - 1 else d

/-- Round a rational to the nearest integer, ties to even. -/
def roundHalfEven (x : ℚ) : Int :=
  let fl : Int := Int.fdiv x.num (x.den : Int)
  let frac : ℚ := x - (fl : ℚ)
  if frac < 1/2 then fl
  else if (1/2 : ℚ) < frac then fl + 1
  else if fl % 2 = 0 then fl else fl + 1

/-- IEEE binary64 rounding of an exact rational: round to nearest, ties
to even, at 53 significant bits.  The exponent range is unbounded (no
overflow to infinity, no subnormal precision loss), which agrees with
binary64 at all magnitudes this program reaches away from those two
extremes.  Used to model the float arithmetic of the aggregator where a
claim is sensitive to rounding. -/
def round64 (q : ℚ) : ℚ :=
  if q = 0 then 0
  else
    let s : ℚ := if q < 0 then -1 else 1
    let aq : ℚ := if q < 0 then -q else q
    let e : Int := ratLog2 aq - 52
    let m : Int := roundHalfEven (aq * ratPow2 (-e))
    s * ((m : ℚ) * ratPow2 e)

/-- The price map `title -> price`.  A Python dict used only through
`in`, `[]` and overwriting insertion; insertion conses at the head so
`List.lookup` sees the most recent binding first. -/
abbrev PriceMap := List (String × ℚ)

/-- Dict lookup: most recent binding of `k`. -/
def pmLookup (pm : PriceMap) (k : String) : Option ℚ :=
  pm.lookup k

/-- Dict overwrite `pm[k] = v`. -/
def pmInsert (pm : PriceMap) (k : String) (v : ℚ) : PriceMap :=
  (k, v) :: pm

/-- Python `pat in s` on strings: substring containment. -/
def strContains (s pat : String) : Bool :=
  (s.toList.tails).any (fun t => pat.toList.isPrefixOf t)

/-- Python `"\n".join(l)`. -/
def joinStrings (sep : String) : List String → String
  | [] => ""
  | [s] => s
  | s :: t :: rest => s ++ sep ++ joinStrings sep (t :: rest)

/-- A normalized sales row: the field list of a parsed JSON object. -/
abbrev Row := List (String × JVal)

/-- Discriminator for the Python `is None` test. -/
def JVal.isNull : JVal → Bool
  | JVal.null => true
  | _ => false

/-- Aggregated totals and counters (`Totals` dataclass of
`src/compute_sales.py`). -/
structure Totals where
  total : ℚ
  processed : Nat
  ignored : Nat
  unknown : Nat
deriving DecidableEq, Repr

namespace CS

/-!  Model of `src/compute_sales.py` (the defensive variant). -/

/-- Loop body of `build_price_map` (`for idx, item in enumerate(catalogue,
start=1)`), carrying the accumulated map and error list. -/
def buildPriceLoop : List JVal → Nat → PriceMap → List String → PriceMap × List String
  | [], _, pm, errs => (pm, errs)
  | item :: rest, idx, pm, errs =>
    match item with
    | JVal.jobj fs =>
      match jget fs "title" with
      | JVal.jstr t =>
        if (pyStrip t) = "" then
          buildPriceLoop rest (idx + 1) pm
            (errs ++ ["Catalogue row #" ++ toString idx ++ ": missing/invalid title -> ignored"])
        else
          match pyFloat (jget fs "price") with
          | some p => buildPriceLoop rest (idx + 1) (pmInsert pm (pyStrip t) p) errs
          | none =>
            buildPriceLoop rest (idx + 1) pm
              (errs ++ ["Catalogue row #" ++ toString idx ++ ": invalid price for \x27" ++
                t ++ "\x27 -> ignored"])
      | _ =>
        buildPriceLoop rest (idx + 1) pm
          (errs ++ ["Catalogue row #" ++ toString idx ++ ": missing/invalid title -> ignored"])
    | _ =>
      buildPriceLoop rest (idx + 1) pm
        (errs ++ ["Catalogue row #" ++ toString idx ++ ": not an object -> ignored"])

/-- Model of `build_price_map(catalogue)`: title -> price map plus error list. -/
def build_price_map (catalogue : JVal) : PriceMap × List String :=
  match catalogue with
  | JVal.jlist items =>
    let r := buildPriceLoop items 1 [] []
    if r.1.isEmpty then (r.1, r.2 ++ ["No valid products found in catalogue."]) else r
  | _ => ([], ["Catalogue JSON must be a list of products."])

/-- Loop body of `normalize_sales_record`. -/
def normLoop : List JVal → Nat → List Row → List String → List Row × List String
  | [], _, rows, errs => (rows, errs)
  | item :: rest, idx, rows, errs =>
    match item with
    | JVal.jobj fs => normLoop rest (idx + 1) (rows ++ [fs]) errs
    | _ =>
      normLoop rest (idx + 1) rows
        (errs ++ ["Sales row #" ++ toString idx ++ ": not an object -> ignored"])

/-- Model of `normalize_sales_record(sales)`: keep object rows, diagnose the rest. -/
def normalize_sales_record (sales : JVal) : List Row × List String :=
  match sales with
  | JVal.jlist items =>
    let r := normLoop items 1 [] []
    if r.1.isEmpty then (r.1, r.2 ++ ["No valid sales rows found."]) else r
  | _ => ([], ["Sales JSON must be a list of sales rows."])

/-- Model of `_validate_row(idx, row, price_map)`: returns
`(product_key, qty, warning_message)`; an empty warning means accepted. -/
def validate_row (idx : Nat) (row : Row) (pm : PriceMap) : String × Int × String :=
  let quantity := jget row "Quantity"
  match jget row "Product" with
  | JVal.jstr s =>
    if (pyStrip s) = "" then
      ("", 0, "Row #" ++ toString idx ++ ": missing/invalid Product -> skipped")
    else
      match pyInt quantity with
      | none =>
        ("", 0, "Row #" ++ toString idx ++ ": invalid Quantity \x27" ++ pyStr quantity ++
          "\x27 for \x27" ++ s ++ "\x27 -> skipped")
      | some qty =>
        if qty ≤ 0 then
          ("", 0, "Row #" ++ toString idx ++ ": non-positive Quantity \x27" ++ toString qty ++
            "\x27 for \x27" ++ s ++ "\x27 -> skipped")
        else
          if (pmLookup pm (pyStrip s)).isSome then ((pyStrip s), qty, "")
          else
            ("", 0, "Row #" ++ toString idx ++ ": product not in catalogue \x27" ++ (pyStrip s) ++
              "\x27 -> skipped")
  | _ => ("", 0, "Row #" ++ toString idx ++ ": missing/invalid Product -> skipped")

/-- Loop body of `compute_total`.  On the accepted path the source does
`price_map[key]`; the `getD 0` default models the `KeyError` branch,
proven unreachable below (the C10 theorem). -/
def computeLoop (pm : PriceMap) :
    List Row → Nat → ℚ → Nat → Nat → Nat → List String → Totals × List String
  | [], _, total, processed, ignored, unknown, warnings =>
    (⟨total, processed, ignored, unknown⟩, warnings)
  | row :: rest, idx, total, processed, ignored, unknown, warnings =>
    let r := validate_row idx row pm
    if r.2.2 ≠ "" then
      computeLoop pm rest (idx + 1) total processed (ignored + 1)
        (if strContains r.2.2 "not in catalogue" then unknown + 1 else unknown)
        (warnings ++ [r.2.2])
    else
      computeLoop pm rest (idx + 1) (total + (pmLookup pm r.1).getD 0 * (r.2.1 : ℚ))
        (processed + 1) ignored unknown warnings

/-- Model of `compute_total(price_map, sales_rows)`: totals plus warnings. -/
def compute_total (pm : PriceMap) (rows : List Row) : Totals × List String :=
  computeLoop pm rows 1 0 0 0 0 []

/-- Accept/reject outcome of one sales row, independent of the row index. -/
def rowOutcome (pm : PriceMap) (row : Row) : Option (String × Int) :=
  match jget row "Product" with
  | JVal.jstr s =>
    if (pyStrip s) = "" then none
    else
      match pyInt (jget row "Quantity") with
      | none => none
      | some qty =>
        if qty ≤ 0 then none
        else if (pmLookup pm (pyStrip s)).isSome then some ((pyStrip s), qty) else none
  | _ => none

/-- Monetary contribution of one row: `price * qty` when accepted, else 0. -/
def rowContrib (pm : PriceMap) (row : Row) : ℚ :=
  match rowOutcome pm row with
  | some (k, q) => (pmLookup pm k).getD 0 * (q : ℚ)
  | none => 0

/-- The accepted catalogue binding produced by one catalogue entry:
`(trimmed title, coerced price)`, or `none` when the entry is skipped. -/
def entryBinding : JVal → Option (String × ℚ)
  | JVal.jobj fs =>
    match jget fs "title" with
    | JVal.jstr t =>
      if (pyStrip t) = "" then none
      else
        match pyFloat (jget fs "price") with
        | some p => some ((pyStrip t), p)
        | none => none
    | _ => none
  | _ => none

/-- The aggregator loop with binary64 accumulation: same control flow as
`computeLoop`, but the product `price_map[key] * qty` and the running
`total +=` round to binary64 after each operation, as Python float
arithmetic does (`computeLoop` instead keeps the exact rational value;
the conversion of the int `qty` to float is exact below `2 ^ 53` and is
not modelled separately). -/
def computeLoop64 (pm : PriceMap) :
    List Row → Nat → ℚ → Nat → Nat → Nat → List String → Totals × List String
  | [], _, total, processed, ignored, unknown, warnings =>
    (⟨total, processed, ignored, unknown⟩, warnings)
  | row :: rest, idx, total, processed, ignored, unknown, warnings =>
    let r := validate_row idx row pm
    if r.2.2 ≠ "" then
      computeLoop64 pm rest (idx + 1) total processed (ignored + 1)
        (if strContains r.2.2 "not in catalogue" then unknown + 1 else unknown)
        (warnings ++ [r.2.2])
    else
      computeLoop64 pm rest (idx + 1)
        (round64 (total + round64 ((pmLookup pm r.1).getD 0 * (r.2.1 : ℚ))))
        (processed + 1) ignored unknown warnings

/-- The aggregator `compute_total` with binary64 float accumulation. -/
def compute_total64 (pm : PriceMap) (rows : List Row) : Totals × List String :=
  computeLoop64 pm rows 1 0 0 0 0 []

/-- Spec 4.3 check 1: `Product` must be a string, non-blank after trimming. -/
def checkProduct (idx : Nat) (row : Row) : Option String :=
  match jget row "Product" with
  | JVal.jstr s =>
    if pyStrip s = "" then
      some ("Row #" ++ toString idx ++ ": missing/invalid Product -> skipped")
    else none
  | _ => some ("Row #" ++ toString idx ++ ": missing/invalid Product -> skipped")

/-- Spec 4.3 check 2: `Quantity` must coerce to an integer. -/
def checkQuantity (idx : Nat) (row : Row) : Option String :=
  match pyInt (jget row "Quantity") with
  | none =>
    some ("Row #" ++ toString idx ++ ": invalid Quantity \x27" ++ pyStr (jget row "Quantity") ++
      "\x27 for \x27" ++ pyStr (jget row "Product") ++ "\x27 -> skipped")
  | some _ => none

/-- Spec 4.3 check 3: the coerced quantity must be strictly positive. -/
def checkPositive (idx : Nat) (row : Row) : Option String :=
  match pyInt (jget row "Quantity") with
  | some qty =>
    if qty ≤ 0 then
      some ("Row #" ++ toString idx ++ ": non-positive Quantity \x27" ++ toString qty ++
        "\x27 for \x27" ++ pyStr (jget row "Product") ++ "\x27 -> skipped")
    else none
  | none => none

/-- Spec 4.3 check 4: the trimmed `Product` must be a key of the price map. -/
def checkKnown (idx : Nat) (row : Row) (pm : PriceMap) : Option String :=
  match jget row "Product" with
  | JVal.jstr s =>
    if (pmLookup pm (pyStrip s)).isSome then none
    else
      some ("Row #" ++ toString idx ++ ": product not in catalogue \x27" ++ pyStrip s ++
        "\x27 -> skipped")
  | _ => none

/-- The spec wording of row validation: apply the four checks in this
exact order and stop at the first failure (its diagnostic is the row
diagnostic); `none` means the row is accepted. -/
def firstFailure (idx : Nat) (row : Row) (pm : PriceMap) : Option String :=
  ([checkProduct idx row, checkQuantity idx row, checkPositive idx row,
    checkKnown idx row pm].filterMap id).head?

/-- Outcome of opening and JSON-parsing one file, the environment input
that `load_json` reacts to. -/
inductive FileOutcome where
  | ok : JVal → FileOutcome
  | notFound : FileOutcome
  | permissionDenied : FileOutcome
  | decodeError : Nat → Nat → FileOutcome

/-- Model of `load_json(path)`: parsed data plus error list.  On failure Python
returns `None`, which is the same value as parsed JSON `null`. -/
def load_json (path : String) : FileOutcome → JVal × List String
  | FileOutcome.ok v => (v, [])
  | FileOutcome.notFound => (JVal.null, ["File not found: " ++ path])
  | FileOutcome.permissionDenied => (JVal.null, ["Permission denied: " ++ path])
  | FileOutcome.decodeError l c =>
    (JVal.null, ["Invalid JSON in " ++ path ++ ": line " ++ toString l ++ ", col " ++ toString c])

/-- The `RunInfo` record minus the wall-clock field (real time is outside the model). -/
structure RunInfo where
  catalogue_path : String
  sales_path : String
  totals : Totals
  warnings : List String

/-- Model of `_run_compute(catalogue_path, sales_path, start_time)` minus timing. -/
def run_compute (catalogue_path sales_path : String) (catO salesO : FileOutcome) : RunInfo :=
  let c := load_json catalogue_path catO
  let s := load_json sales_path salesO
  let warnings := c.2 ++ s.2
  if c.1.isNull || s.1.isNull then
    ⟨catalogue_path, sales_path, ⟨0, 0, 0, 0⟩, warnings⟩
  else
    let bp := build_price_map c.1
    let ns := normalize_sales_record s.1
    let ct := compute_total bp.1 ns.1
    ⟨catalogue_path, sales_path, ct.1, warnings ++ bp.2 ++ ns.2 ++ ct.2⟩

/-- Model of `main(argv)`: the returned exit code (output emission is I/O glue
outside the model).  `parse_args` demands `len(argv) == 3`. -/
def main (argv : List String) (catO salesO : FileOutcome) : Nat :=
  if argv.length ≠ 3 then 2
  else
    let info := run_compute (argv.getD 1 "") (argv.getD 2 "") catO salesO
    if strContains (joinStrings "\n" info.warnings) "File not found:" then 1 else 0

end CS

namespace Camel

/-!  Model of `src/computeSales.py` (the inline variant).  Its console
prints are collected into a list of strings. -/

/-- Loop body of `build_catalogue_map`: accumulated map, count of
invalid rows, printed warnings. -/
def buildCatLoop : List JVal → Nat → PriceMap → Nat → List String → PriceMap × Nat × List String
  | [], _, cat, invalid, out => (cat, invalid, out)
  | item :: rest, idx, cat, invalid, out =>
    match item with
    | JVal.jobj fs =>
      match jget fs "title" with
      | JVal.jstr t =>
        if (pyStrip t) = "" then
          buildCatLoop rest (idx + 1) cat (invalid + 1)
            (out ++ ["Warning (catalogue row " ++ toString idx ++ "): missing/invalid title -> ignored"])
        else
          match pyFloat (jget fs "price") with
          | some p => buildCatLoop rest (idx + 1) (pmInsert cat (pyStrip t) p) invalid out
          | none =>
            buildCatLoop rest (idx + 1) cat (invalid + 1)
              (out ++ ["Warning (catalogue row " ++ toString idx ++ "): invalid price for \x27" ++
                t ++ "\x27 -> ignored"])
      | _ =>
        buildCatLoop rest (idx + 1) cat (invalid + 1)
          (out ++ ["Warning (catalogue row " ++ toString idx ++ "): missing/invalid title -> ignored"])
    | _ =>
      buildCatLoop rest (idx + 1) cat (invalid + 1)
        (out ++ ["Warning (catalogue row " ++ toString idx ++ "): not an object -> ignored"])

/-- Model of `build_catalogue_map(catalogue_json)`: raises `ValueError` (modelled
as `Except.error`) on a non-list top level. -/
def build_catalogue_map (catalogue_json : JVal) : Except String (PriceMap × List String) :=
  match catalogue_json with
  | JVal.jlist items =>
    let r := buildCatLoop items 1 [] 0 []
    Except.ok (r.1,
      if 0 < r.2.1 then
        r.2.2 ++ ["Info: catalogue invalid rows ignored: " ++ toString r.2.1]
      else r.2.2)
  | _ => Except.error "Catalogue JSON must be a list of product objects."

/-- Loop body of `compute_total` of `computeSales.py`. -/
def computeLoop (catalogue : PriceMap) :
    List Row → Nat → ℚ → Nat → Nat → Nat → List String → (ℚ × Nat × Nat × Nat) × List String
  | [], _, total, processed, ignored, unknown, out => ((total, processed, ignored, unknown), out)
  | row :: rest, idx, total, processed, ignored, unknown, out =>
    let quantity := jget row "Quantity"
    match jget row "Product" with
    | JVal.jstr s =>
      if (pyStrip s) = "" then
        computeLoop catalogue rest (idx + 1) total processed (ignored + 1) unknown
          (out ++ ["Warning (sales row " ++ toString idx ++ "): missing/invalid Product -> ignored"])
      else
        match pyInt quantity with
        | none =>
          computeLoop catalogue rest (idx + 1) total processed (ignored + 1) unknown
            (out ++ ["Warning (sales row " ++ toString idx ++ "): invalid Quantity \x27" ++
              pyStr quantity ++ "\x27 -> ignored"])
        | some qty =>
          if qty ≤ 0 then
            computeLoop catalogue rest (idx + 1) total processed (ignored + 1) unknown
              (out ++ ["Warning (sales row " ++ toString idx ++ "): non-positive Quantity \x27" ++
                toString qty ++ "\x27 -> ignored"])
          else
            match pmLookup catalogue (pyStrip s) with
            | none =>
              computeLoop catalogue rest (idx + 1) total processed (ignored + 1) (unknown + 1)
                (out ++ ["Warning (sales row " ++ toString idx ++ "): product not in catalogue \x27" ++
                  (pyStrip s) ++ "\x27 -> ignored"])
            | some price =>
              computeLoop catalogue rest (idx + 1) (total + price * (qty : ℚ))
                (processed + 1) ignored unknown out
    | _ =>
      computeLoop catalogue rest (idx + 1) total processed (ignored + 1) unknown
        (out ++ ["Warning (sales row " ++ toString idx ++ "): missing/invalid Product -> ignored"])

/-- Model of `compute_total(catalogue, sales_rows)` of `computeSales.py`:
`(total_cost, processed_rows, ignored_rows, unknown_products)` plus the
printed warnings. -/
def compute_total (catalogue : PriceMap) (sales_rows : List Row) :
    (ℚ × Nat × Nat × Nat) × List String :=
  computeLoop catalogue sales_rows 1 0 0 0 0 []

end Camel

end SalesSpec

namespace SalesSpec

/-! ### Helper lemmas for the proofs -/

lemma append_left_ne (a b : String) (h : a ≠ "") : a ++ b ≠ "" := by
  intro hc
  apply h
  have hd : (a ++ b).data = ("" : String).data := congrArg String.data hc
  rw [String.data_append] at hd
  have h2 : a.data = [] ∧ b.data = [] := List.append_eq_nil.mp hd
  cases a
  simp_all

namespace CS

lemma validate_row_master (idx : Nat) (row : Row) (pm : PriceMap) :
    (∀ k q, rowOutcome pm row = some (k, q) →
        validate_row idx row pm = (k, q, "") ∧ 0 < q ∧ (pmLookup pm k).isSome = true) ∧
    (rowOutcome pm row = none → (validate_row idx row pm).2.2 ≠ "") := by
  constructor
  · intro k q h
    unfold rowOutcome at h
    unfold validate_row
    dsimp only
    split
    case h_2 x hx => simp_all
    case h_1 s heq =>
      rw [heq] at h
      simp only [] at h
      split
      case isTrue hb => simp [hb] at h
      case isFalse hb =>
        simp only [if_neg hb] at h
        split
        case h_1 hq => rw [hq] at h; simp at h
        case h_2 qty hq =>
          rw [hq] at h
          simp only [] at h
          split
          case isTrue hqp => simp [hqp] at h
          case isFalse hqp =>
            simp only [if_neg hqp] at h
            split
            case isTrue hk =>
              simp only [if_pos hk] at h
              simp only [Option.some.injEq, Prod.mk.injEq] at h
              refine ⟨by simp [h.1, h.2], by omega, by rw [← h.1]; exact hk⟩
            case isFalse hk => simp [hk] at h
  · intro h
    unfold rowOutcome at h
    unfold validate_row
    dsimp only
    split
    case h_2 x hx =>
      repeat apply append_left_ne
      decide
    case h_1 s heq =>
      rw [heq] at h
      simp only [] at h
      split
      case isTrue hb =>
        repeat apply append_left_ne
        decide
      case isFalse hb =>
        simp only [if_neg hb] at h
        split
        case h_1 hq =>
          repeat apply append_left_ne
          decide
        case h_2 qty hq =>
          rw [hq] at h
          simp only [] at h
          split
          case isTrue hqp =>
            repeat apply append_left_ne
            decide
          case isFalse hqp =>
            simp only [if_neg hqp] at h
            split
            case isTrue hk => simp [hk] at h
            case isFalse hk =>
              repeat apply append_left_ne
              decide

lemma validate_row_accept (idx : Nat) (row : Row) (pm : PriceMap) (k : String) (q : Int)
    (h : rowOutcome pm row = some (k, q)) : validate_row idx row pm = (k, q, "") :=
  ((validate_row_master idx row pm).1 k q h).1

lemma validate_row_reject (idx : Nat) (row : Row) (pm : PriceMap)
    (h : rowOutcome pm row = none) : (validate_row idx row pm).2.2 ≠ "" :=
  (validate_row_master idx row pm).2 h

lemma computeLoop_spec (pm : PriceMap) (rows : List Row) :
    ∀ (idx : Nat) (t : ℚ) (p i u : Nat) (w : List String),
    (computeLoop pm rows idx t p i u w).1.total = t + (rows.map (rowContrib pm)).sum ∧
    (computeLoop pm rows idx t p i u w).1.processed
      = p + rows.countP (fun row => (rowOutcome pm row).isSome) ∧
    (computeLoop pm rows idx t p i u w).1.ignored
      = i + rows.countP (fun row => !(rowOutcome pm row).isSome) ∧
    (computeLoop pm rows idx t p i u w).2.length
      = w.length + rows.countP (fun row => !(rowOutcome pm row).isSome) := by
  induction rows with
  | nil => intro idx t p i u w; simp [computeLoop]
  | cons row rest ih =>
    intro idx t p i u w
    cases ho : rowOutcome pm row with
    | some kq =>
      obtain ⟨k, q⟩ := kq
      have hv := validate_row_accept idx row pm k q ho
      simp only [computeLoop, hv]
      rw [if_neg (by simp)]
      obtain ⟨h1, h2, h3, h4⟩ := ih (idx + 1) (t + (pmLookup pm k).getD 0 * (q : ℚ)) (p + 1) i u w
      refine ⟨?_, ?_, ?_, ?_⟩
      · rw [h1]
        simp only [List.map_cons, List.sum_cons, rowContrib, ho]
        ring
      · rw [h2, List.countP_cons]
        simp [ho]
        omega
      · rw [h3, List.countP_cons]
        simp [ho]
      · rw [h4, List.countP_cons]
        simp [ho]
    | none =>
      have hv := validate_row_reject idx row pm ho
      simp only [computeLoop]
      rw [if_pos hv]
      obtain ⟨h1, h2, h3, h4⟩ := ih (idx + 1) t p (i + 1)
        (if strContains (validate_row idx row pm).2.2 "not in catalogue" then u + 1 else u)
        (w ++ [(validate_row idx row pm).2.2])
      refine ⟨?_, ?_, ?_, ?_⟩
      · rw [h1]
        simp only [List.map_cons, List.sum_cons, rowContrib, ho]
        ring
      · rw [h2, List.countP_cons]
        simp [ho]
      · rw [h3, List.countP_cons]
        simp [ho]
        omega
      · rw [h4, List.countP_cons]
        simp [ho]
        omega

end CS

end SalesSpec

namespace SalesSpec

lemma isPrefixOf_iff_isPre {α : Type} [DecidableEq α] (l1 l2 : List α) :
    l1.isPrefixOf l2 = true ↔ l1 <+: l2 := by
  induction l1 generalizing l2 with
  | nil => simp [List.isPrefixOf]
  | cons a as ih =>
    cases l2 with
    | nil => simp [List.isPrefixOf]
    | cons b bs =>
      simp [List.isPrefixOf, List.cons_prefix_cons, ih, Bool.and_eq_true, beq_iff_eq]

lemma strContains_iff (s pat : String) :
    strContains s pat = true ↔ pat.toList <:+: s.toList := by
  unfold strContains
  rw [List.any_eq_true]
  constructor
  · rintro ⟨t, ht, hp⟩
    obtain ⟨r, hr⟩ := (isPrefixOf_iff_isPre _ _).mp hp
    obtain ⟨q, hq⟩ := (List.mem_tails _ _).mp ht
    exact ⟨q, r, by rw [List.append_assoc, hr, hq]⟩
  · rintro ⟨q, r, hqr⟩
    refine ⟨pat.toList ++ r, ?_, ?_⟩
    · rw [List.mem_tails]
      exact ⟨q, by rw [← List.append_assoc, hqr]⟩
    · exact (isPrefixOf_iff_isPre _ _).mpr ⟨r, rfl⟩

lemma strContains_append_left (a b pat : String) (h : strContains a pat = true) :
    strContains (a ++ b) pat = true := by
  rw [strContains_iff] at h ⊢
  obtain ⟨q, r, hqr⟩ := h
  refine ⟨q, r ++ b.toList, ?_⟩
  have hab : (a ++ b).toList = a.toList ++ b.toList := String.data_append a b
  rw [hab, ← hqr]
  simp [List.append_assoc]

lemma strContains_append_right (a b pat : String) (h : strContains b pat = true) :
    strContains (a ++ b) pat = true := by
  rw [strContains_iff] at h ⊢
  obtain ⟨q, r, hqr⟩ := h
  refine ⟨a.toList ++ q, r, ?_⟩
  have hab : (a ++ b).toList = a.toList ++ b.toList := String.data_append a b
  rw [hab, ← hqr]
  simp [List.append_assoc]

lemma strContains_join (sep pat : String) : ∀ (w : List String) (m : String), m ∈ w →
    strContains m pat = true → strContains (joinStrings sep w) pat = true := by
  intro w
  induction w with
  | nil => intro m hm _; simp at hm
  | cons a rest ih =>
    intro m hm h
    cases hm with
    | head =>
      cases rest with
      | nil => exact h
      | cons b r2 =>
        show strContains (a ++ sep ++ joinStrings sep (b :: r2)) pat = true
        exact strContains_append_left _ _ _ (strContains_append_left _ _ _ h)
    | tail _ hm =>
      cases rest with
      | nil => cases hm
      | cons b r2 =>
        show strContains (a ++ sep ++ joinStrings sep (b :: r2)) pat = true
        exact strContains_append_right _ _ _ (ih m hm h)

lemma lookup_append (l1 l2 : List (String × ℚ)) (k : String) :
    (l1 ++ l2).lookup k = match l1.lookup k with
      | some v => some v
      | none => l2.lookup k := by
  induction l1 with
  | nil => simp [List.lookup]
  | cons a rest ih =>
    obtain ⟨a1, a2⟩ := a
    by_cases hk : k == a1
    · simp [List.lookup, hk]
    · simp only [List.cons_append, List.lookup, hk]
      exact ih

lemma lookup_eq_none_of_keys (l : List (String × ℚ)) (k : String)
    (h : ∀ x ∈ l, x.1 ≠ k) : l.lookup k = none := by
  induction l with
  | nil => simp [List.lookup]
  | cons a rest ih =>
    obtain ⟨a1, a2⟩ := a
    have hne : ¬ (k == a1) := by
      have := h (a1, a2) (by simp)
      simp at this ⊢
      exact fun hc => this hc.symm
    simp only [List.lookup, hne]
    exact ih (fun x hx => h x (by simp [hx]))

end SalesSpec

namespace SalesSpec
namespace CS

lemma buildPriceLoop_map (items : List JVal) : ∀ (idx : Nat) (pm : PriceMap) (errs : List String),
    (buildPriceLoop items idx pm errs).1 = (items.filterMap entryBinding).reverse ++ pm := by
  induction items with
  | nil => intro idx pm errs; simp [buildPriceLoop]
  | cons item rest ih =>
    intro idx pm errs
    simp only [buildPriceLoop]
    split
    case h_2 x hx =>
      rw [ih]
      have he : entryBinding item = none := by
        cases item
        case jobj fs => exact (hx fs rfl).elim
        all_goals simp [entryBinding]
      simp [List.filterMap_cons, he]
    case h_1 fs =>
      split
      case h_2 x hx =>
        rw [ih]
        have he : entryBinding (JVal.jobj fs) = none := by
          cases hT : jget fs "title"
          case jstr t => exact (hx t hT).elim
          all_goals simp [entryBinding, hT]
        simp [List.filterMap_cons, he]
      case h_1 t ht =>
        split
        case isTrue hb =>
          rw [ih]
          have he : entryBinding (JVal.jobj fs) = none := by
            simp [entryBinding, ht, hb]
          simp [List.filterMap_cons, he]
        case isFalse hb =>
          split
          case h_1 p hp =>
            rw [ih]
            have he : entryBinding (JVal.jobj fs) = some ((pyStrip t), p) := by
              simp [entryBinding, ht, hb, hp]
            simp [List.filterMap_cons, he, pmInsert]
          case h_2 hp =>
            rw [ih]
            have he : entryBinding (JVal.jobj fs) = none := by
              simp [entryBinding, ht, hb, hp]
            simp [List.filterMap_cons, he]

lemma build_price_map_eq (items : List JVal) :
    (build_price_map (JVal.jlist items)).1 = (items.filterMap entryBinding).reverse := by
  simp only [build_price_map]
  split <;> simp [buildPriceLoop_map]

end CS
end SalesSpec

namespace SalesSpec
namespace Camel

open CS (entryBinding)

lemma buildCatLoop_map (items : List JVal) :
    ∀ (idx : Nat) (cat : PriceMap) (invalid : Nat) (out : List String),
    (buildCatLoop items idx cat invalid out).1 = (items.filterMap entryBinding).reverse ++ cat := by
  induction items with
  | nil => intro idx cat invalid out; simp [buildCatLoop]
  | cons item rest ih =>
    intro idx cat invalid out
    simp only [buildCatLoop]
    split
    case h_2 x hx =>
      rw [ih]
      have he : entryBinding item = none := by
        cases item
        case jobj fs => exact (hx fs rfl).elim
        all_goals simp [entryBinding]
      simp [List.filterMap_cons, he]
    case h_1 fs =>
      split
      case h_2 x hx =>
        rw [ih]
        have he : entryBinding (JVal.jobj fs) = none := by
          cases hT : jget fs "title"
          case jstr t => exact (hx t hT).elim
          all_goals simp [entryBinding, hT]
        simp [List.filterMap_cons, he]
      case h_1 t ht =>
        split
        case isTrue hb =>
          rw [ih]
          have he : entryBinding (JVal.jobj fs) = none := by
            simp [entryBinding, ht, hb]
          simp [List.filterMap_cons, he]
        case isFalse hb =>
          split
          case h_1 p hp =>
            rw [ih]
            have he : entryBinding (JVal.jobj fs) = some ((pyStrip t), p) := by
              simp [entryBinding, ht, hb, hp]
            simp [List.filterMap_cons, he, pmInsert]
          case h_2 hp =>
            rw [ih]
            have he : entryBinding (JVal.jobj fs) = none := by
              simp [entryBinding, ht, hb, hp]
            simp [List.filterMap_cons, he]

lemma build_catalogue_map_fst (items : List JVal) (r : PriceMap × List String)
    (h : build_catalogue_map (JVal.jlist items) = Except.ok r) :
    r.1 = (items.filterMap entryBinding).reverse := by
  simp only [build_catalogue_map] at h
  cases h
  show (buildCatLoop items 1 [] 0 []).1 = _
  rw [buildCatLoop_map]
  simp

end Camel
end SalesSpec

namespace SalesSpec
namespace Camel

open CS (rowOutcome)

lemma camelLoop_spec (cat : PriceMap) (rows : List Row) :
    ∀ (idx : Nat) (t : ℚ) (p i u : Nat) (out : List String),
    (computeLoop cat rows idx t p i u out).1.2.1
        + (computeLoop cat rows idx t p i u out).1.2.2.1 = p + i + rows.length ∧
    (computeLoop cat rows idx t p i u out).2.length
        = out.length + ((computeLoop cat rows idx t p i u out).1.2.2.1 - i) ∧
    i ≤ (computeLoop cat rows idx t p i u out).1.2.2.1 := by
  induction rows with
  | nil => intro idx t p i u out; simp [computeLoop]
  | cons row rest ih =>
    intro idx t p i u out
    simp only [computeLoop]
    split
    case h_2 x hx =>
      obtain ⟨g1, g2, g3⟩ := ih (idx + 1) t p (i + 1) u
        (out ++ ["Warning (sales row " ++ toString idx ++ "): missing/invalid Product -> ignored"])
      refine ⟨by rw [g1]; simp; omega, by rw [g2]; simp; omega, by omega⟩
    case h_1 s heq =>
      split
      case isTrue hb =>
        obtain ⟨g1, g2, g3⟩ := ih (idx + 1) t p (i + 1) u
          (out ++ ["Warning (sales row " ++ toString idx ++ "): missing/invalid Product -> ignored"])
        refine ⟨by rw [g1]; simp; omega, by rw [g2]; simp; omega, by omega⟩
      case isFalse hb =>
        split
        case h_1 hq =>
          obtain ⟨g1, g2, g3⟩ := ih (idx + 1) t p (i + 1) u
            (out ++ ["Warning (sales row " ++ toString idx ++ "): invalid Quantity \x27" ++
              pyStr (jget row "Quantity") ++ "\x27 -> ignored"])
          refine ⟨by rw [g1]; simp; omega, by rw [g2]; simp; omega, by omega⟩
        case h_2 qty hq =>
          split
          case isTrue hqp =>
            obtain ⟨g1, g2, g3⟩ := ih (idx + 1) t p (i + 1) u
              (out ++ ["Warning (sales row " ++ toString idx ++ "): non-positive Quantity \x27" ++
                toString qty ++ "\x27 -> ignored"])
            refine ⟨by rw [g1]; simp; omega, by rw [g2]; simp; omega, by omega⟩
          case isFalse hqp =>
            split
            case h_1 hk =>
              obtain ⟨g1, g2, g3⟩ := ih (idx + 1) t p (i + 1) (u + 1)
                (out ++ ["Warning (sales row " ++ toString idx ++ "): product not in catalogue \x27" ++
                  (pyStrip s) ++ "\x27 -> ignored"])
              refine ⟨by rw [g1]; simp; omega, by rw [g2]; simp; omega, by omega⟩
            case h_2 price hk =>
              obtain ⟨g1, g2, g3⟩ := ih (idx + 1) (t + price * (qty : ℚ)) (p + 1) i u out
              refine ⟨by rw [g1]; simp; omega, by rw [g2], by omega⟩

end Camel
end SalesSpec

namespace SalesSpec

attribute [local semireducible] Rat.add Rat.mul Rat.inv Rat.sub

lemma mem_of_lookup_some (l : List (String × ℚ)) (k : String) (v : ℚ)
    (h : l.lookup k = some v) : (k, v) ∈ l := by
  induction l with
  | nil => simp [List.lookup] at h
  | cons a rest ih =>
    obtain ⟨a1, a2⟩ := a
    by_cases hk : (k == a1 : Bool)
    · have hk' : k = a1 := by simpa using hk
      simp [List.lookup, hk] at h
      subst hk'
      simp [h]
    · simp [List.lookup, hk] at h
      exact List.mem_cons_of_mem _ (ih h)

lemma pyStr_jstr (s : String) : pyStr (JVal.jstr s) = s := rfl

lemma countP_add_countP_not {α : Type} (p : α → Bool) (l : List α) :
    l.countP p + l.countP (fun a => !p a) = l.length := by
  induction l with
  | nil => simp
  | cons a rest ih =>
    by_cases h : p a <;> simp [List.countP_cons, h] <;> omega

/-- Claim C1: Scenario A.  For catalogue `[{"title":"Pen","price":1.5}]` and
sales `[{"Product":"Pen","Quantity":3}]`, the aggregator returns total
4.50 (exactly 9/2), processed 1, ignored 0, unknown 0. -/
theorem claim_C1 :
    CS.compute_total
        (CS.build_price_map
          (JVal.jlist [JVal.jobj [("title", JVal.jstr "Pen"), ("price", JVal.jfloat (3/2))]])).1
        [[("Product", JVal.jstr "Pen"), ("Quantity", JVal.jint 3)]]
      = ({ total := 9/2, processed := 1, ignored := 0, unknown := 0 }, []) := by
  decide

/-- Claim C2: for every price map and normalized sales list, each object row is
counted exactly once, as processed or as ignored:
`processed + ignored = number of rows`, in both variants. -/
theorem claim_C2 (pm : PriceMap) (rows : List Row) :
    (CS.compute_total pm rows).1.processed + (CS.compute_total pm rows).1.ignored
        = rows.length ∧
    (Camel.compute_total pm rows).1.2.1 + (Camel.compute_total pm rows).1.2.2.1
        = rows.length := by
  constructor
  · have h := CS.computeLoop_spec pm rows 1 0 0 0 0 []
    show (CS.computeLoop pm rows 1 0 0 0 0 []).1.processed
        + (CS.computeLoop pm rows 1 0 0 0 0 []).1.ignored = rows.length
    rw [h.2.1, h.2.2.1]
    have := countP_add_countP_not (fun row => (CS.rowOutcome pm row).isSome) rows
    omega
  · have h := Camel.camelLoop_spec pm rows 1 0 0 0 0 []
    show (Camel.computeLoop pm rows 1 0 0 0 0 []).1.2.1
        + (Camel.computeLoop pm rows 1 0 0 0 0 []).1.2.2.1 = rows.length
    have := h.1
    omega

/-- Claim C3 counterexample: with a valid argument vector, a catalogue file
that fails with `PermissionError` and a sales file that parses, `main`
returns exit code 0, not the claimed 1. -/
theorem claim_C3_counterexample :
    CS.main ["compute_sales.py", "cat.json", "sales.json"]
        CS.FileOutcome.permissionDenied (CS.FileOutcome.ok (JVal.jlist [])) = 0 := by
  decide

/-- Claim C3 amended: exit code 2 iff the argument count is wrong; exit code 1
iff the newline-joined warning list contains the substring
"File not found:" — which holds whenever either file is missing — and 0
otherwise; in particular permission-denied and malformed-JSON failures
exit 0. -/
theorem claim_C3_amended (argv : List String) (catO salesO : CS.FileOutcome) :
    (argv.length ≠ 3 → CS.main argv catO salesO = 2) ∧
    (argv.length = 3 → (catO = CS.FileOutcome.notFound ∨ salesO = CS.FileOutcome.notFound) →
        CS.main argv catO salesO = 1) ∧
    (argv.length = 3 →
        strContains
          (joinStrings "\n"
            (CS.run_compute (argv.getD 1 "") (argv.getD 2 "") catO salesO).warnings)
          "File not found:" = true →
        CS.main argv catO salesO = 1) ∧
    (argv.length = 3 →
        strContains
          (joinStrings "\n"
            (CS.run_compute (argv.getD 1 "") (argv.getD 2 "") catO salesO).warnings)
          "File not found:" = false →
        CS.main argv catO salesO = 0) := by
  refine ⟨?_, ?_, ?_, ?_⟩
  · intro h
    simp [CS.main, h]
  · intro h3 hnf
    have hmem : ∃ m ∈ (CS.run_compute (argv.getD 1 "") (argv.getD 2 "") catO salesO).warnings,
        strContains m "File not found:" = true := by
      rcases hnf with h | h
      · subst h
        refine ⟨"File not found: " ++ argv.getD 1 "", ?_,
          strContains_append_left _ _ _ (by decide)⟩
        simp [CS.run_compute, CS.load_json, JVal.isNull]
      · subst h
        refine ⟨"File not found: " ++ argv.getD 2 "", ?_,
          strContains_append_left _ _ _ (by decide)⟩
        simp [CS.run_compute, CS.load_json, JVal.isNull]
    obtain ⟨m, hm, hc⟩ := hmem
    have hj := strContains_join "\n" "File not found:" _ m hm hc
    have hmain : CS.main argv catO salesO
        = (if strContains
              (joinStrings "\n"
                (CS.run_compute (argv.getD 1 "") (argv.getD 2 "") catO salesO).warnings)
              "File not found:" = true then 1 else 0) := by
      simp only [CS.main]
      rw [if_neg (by simp [h3])]
    rw [hmain, if_pos hj]
  · intro h3 hcn
    have hmain : CS.main argv catO salesO
        = (if strContains
              (joinStrings "\n"
                (CS.run_compute (argv.getD 1 "") (argv.getD 2 "") catO salesO).warnings)
              "File not found:" = true then 1 else 0) := by
      simp only [CS.main]
      rw [if_neg (by simp [h3])]
    rw [hmain, if_pos hcn]
  · intro h3 hnc
    have hmain : CS.main argv catO salesO
        = (if strContains
              (joinStrings "\n"
                (CS.run_compute (argv.getD 1 "") (argv.getD 2 "") catO salesO).warnings)
              "File not found:" = true then 1 else 0) := by
      simp only [CS.main]
      rw [if_neg (by simp [h3])]
    rw [hmain, if_neg (by simp only [hnc]; decide)]

theorem claim_C3_witness :
    CS.main ["compute_sales.py", "missing.json", "sales.json"] CS.FileOutcome.notFound
        (CS.FileOutcome.ok (JVal.jlist [])) = 1 :=
  (claim_C3_amended _ _ _).2.1 (by decide) (Or.inl rfl)

/-- Claim C4 counterexample: negative prices are admitted into the price map,
so the accumulated total can be negative: catalogue
`[{"title":"Pen","price":-1.5}]`, sales `[{"Product":"Pen","Quantity":3}]`
yields total -4.5 < 0. -/
theorem claim_C4_counterexample :
    (CS.compute_total
        (CS.build_price_map (JVal.jlist [JVal.jobj [("title", JVal.jstr "Pen"),
          ("price", JVal.jfloat (-(3/2)))]])).1
        [[("Product", JVal.jstr "Pen"), ("Quantity", JVal.jint 3)]]).1.total < 0 := by
  decide

/-- Claim C4 amended: if every price in the price map is nonnegative then the
accumulated total is nonnegative (accepted quantities are always
strictly positive; the code rejects non-positive quantities but admits
negative prices). -/
theorem claim_C4_amended (pm : PriceMap) (rows : List Row)
    (hpm : ∀ kv ∈ pm, 0 ≤ kv.2) :
    0 ≤ (CS.compute_total pm rows).1.total := by
  have h := (CS.computeLoop_spec pm rows 1 0 0 0 0 []).1
  show 0 ≤ (CS.computeLoop pm rows 1 0 0 0 0 []).1.total
  rw [h, zero_add]
  apply List.sum_nonneg
  intro x hx
  simp only [List.mem_map] at hx
  obtain ⟨row, _, rfl⟩ := hx
  cases ho : CS.rowOutcome pm row with
  | none => simp [CS.rowContrib, ho]
  | some kq =>
    obtain ⟨k, q⟩ := kq
    simp only [CS.rowContrib, ho]
    have hq : 0 < q := ((CS.validate_row_master 1 row pm).1 k q ho).2.1
    cases hl : pmLookup pm k with
    | none => simp
    | some p =>
      have hp : 0 ≤ p := hpm (k, p) (mem_of_lookup_some pm k p hl)
      simp only [Option.getD_some]
      have hq' : (0 : ℚ) ≤ (q : ℚ) := by exact_mod_cast le_of_lt hq
      exact mul_nonneg hp hq'

theorem claim_C4_witness :
    (∀ kv ∈ [("Pen", (3 : ℚ)/2)], 0 ≤ kv.2) ∧
    0 ≤ (CS.compute_total [("Pen", (3 : ℚ)/2)]
        [[("Product", JVal.jstr "Pen"), ("Quantity", JVal.jint 3)]]).1.total :=
  ⟨by decide, claim_C4_amended _ _ (by decide)⟩

/-- Claim C5 (code bug): the code increments `unknown` for any rejected row whose warning
text contains the substring "not in catalogue".  The row
`{"Product":"Pen","Quantity":"not in catalogue"}` is rejected for
invalid Quantity (its diagnostic is the invalid-Quantity one), yet
`unknown` comes back 1 — contradicting the claim that only
unknown-product rejections increment the counter. -/
theorem claim_C5_failing_input :
    (CS.compute_total [("Pen", (3 : ℚ)/2)]
        [[("Product", JVal.jstr "Pen"), ("Quantity", JVal.jstr "not in catalogue")]]).1.unknown
      = 1 ∧
    (CS.validate_row 1
        [("Product", JVal.jstr "Pen"), ("Quantity", JVal.jstr "not in catalogue")]
        [("Pen", (3 : ℚ)/2)]).2.2
      = "Row #1: invalid Quantity \x27not in catalogue\x27 for \x27Pen\x27 -> skipped" := by
  constructor
  · decide
  · decide

/-- Claim C6: row validation follows the exact order given in the spec with
short-circuit: the diagnostic of `_validate_row` is the first failing
check among (1) Product shape, (2) Quantity coercion, (3) positivity,
(4) catalogue membership — and each rejected row contributes exactly one
diagnostic (warnings count = ignored count), in both variants. -/
theorem claim_C6 (pm : PriceMap) (rows : List Row) (idx : Nat) (row : Row) :
    CS.firstFailure idx row pm
      = (if (CS.validate_row idx row pm).2.2 = "" then none
         else some ((CS.validate_row idx row pm).2.2)) ∧
    (CS.compute_total pm rows).2.length = (CS.compute_total pm rows).1.ignored ∧
    (Camel.compute_total pm rows).2.length = (Camel.compute_total pm rows).1.2.2.1 := by
  refine ⟨?_, ?_, ?_⟩
  · have hne1 : ("Row #" ++ toString idx ++ ": missing/invalid Product -> skipped") ≠ "" := by
      repeat apply append_left_ne
      decide
    cases hP : jget row "Product" with
    | jstr s =>
      by_cases hb : pyStrip s = ""
      · simp [CS.firstFailure, CS.checkProduct, CS.checkQuantity, CS.checkPositive,
          CS.checkKnown, CS.validate_row, hP, hb, hne1]
      · cases hq : pyInt (jget row "Quantity") with
        | none =>
          have hne2 : ("Row #" ++ toString idx ++ ": invalid Quantity \x27" ++
              pyStr (jget row "Quantity") ++ "\x27 for \x27" ++ s ++ "\x27 -> skipped") ≠ "" := by
            repeat apply append_left_ne
            decide
          simp [CS.firstFailure, CS.checkProduct, CS.checkQuantity, CS.checkPositive,
            CS.checkKnown, CS.validate_row, pyStr_jstr, hP, hb, hq, hne2]
        | some qty =>
          by_cases hqp : qty ≤ 0
          · have hne3 : ("Row #" ++ toString idx ++ ": non-positive Quantity \x27" ++
                toString qty ++ "\x27 for \x27" ++ s ++ "\x27 -> skipped") ≠ "" := by
              repeat apply append_left_ne
              decide
            simp [CS.firstFailure, CS.checkProduct, CS.checkQuantity, CS.checkPositive,
              CS.checkKnown, CS.validate_row, pyStr_jstr, hP, hb, hq, hqp, hne3]
          · by_cases hk : (pmLookup pm (pyStrip s)).isSome
            · simp [CS.firstFailure, CS.checkProduct, CS.checkQuantity, CS.checkPositive,
                CS.checkKnown, CS.validate_row, hP, hb, hq, hqp, hk]
            · have hne4 : ("Row #" ++ toString idx ++ ": product not in catalogue \x27" ++
                  pyStrip s ++ "\x27 -> skipped") ≠ "" := by
                repeat apply append_left_ne
                decide
              simp [CS.firstFailure, CS.checkProduct, CS.checkQuantity, CS.checkPositive,
                CS.checkKnown, CS.validate_row, hP, hb, hq, hqp, hk, hne4]
    | _ =>
      simp [CS.firstFailure, CS.checkProduct, CS.checkQuantity, CS.checkPositive,
        CS.checkKnown, CS.validate_row, hP, hne1]
  · have h := CS.computeLoop_spec pm rows 1 0 0 0 0 []
    show (CS.computeLoop pm rows 1 0 0 0 0 []).2.length
        = (CS.computeLoop pm rows 1 0 0 0 0 []).1.ignored
    rw [h.2.2.1, h.2.2.2]
    simp
  · have h := Camel.camelLoop_spec pm rows 1 0 0 0 0 []
    show (Camel.computeLoop pm rows 1 0 0 0 0 []).2.length
        = (Camel.computeLoop pm rows 1 0 0 0 0 []).1.2.2.1
    have hB := h.2.1
    have hC := h.2.2
    simp only [List.length_nil, Nat.zero_add, Nat.sub_zero] at hB
    exact hB

/-- Claim C7 counterexample: a non-sequence catalogue top level is NOT fatal
in `compute_sales.py`: the run continues, the sales rows are aggregated
against an empty price map (the one row is examined and ignored), and
the exit code is 0, not nonzero. -/
theorem claim_C7_counterexample :
    CS.main ["computeSales.py", "cat.json", "sales.json"]
        (CS.FileOutcome.ok (JVal.jint 5))
        (CS.FileOutcome.ok (JVal.jlist [JVal.jobj [("Product", JVal.jstr "Pen"),
          ("Quantity", JVal.jint 3)]])) = 0 ∧
    (CS.run_compute "cat.json" "sales.json" (CS.FileOutcome.ok (JVal.jint 5))
        (CS.FileOutcome.ok (JVal.jlist [JVal.jobj [("Product", JVal.jstr "Pen"),
          ("Quantity", JVal.jint 3)]]))).totals.ignored = 1 := by
  constructor
  · decide
  · decide

/-- Claim C7 amended: when the catalogue top-level value is not a sequence
(and neither parsed value is `None`), `build_price_map` records the
single diagnostic and returns the empty map, and the run still
aggregates all normalized sales rows against that empty map —
aggregation is attempted and the run is not aborted. -/
theorem claim_C7_amended (v sales : JVal) (p1 p2 : String)
    (hv : ∀ l, v ≠ JVal.jlist l) (hvn : v.isNull = false) (hsn : sales.isNull = false) :
    CS.build_price_map v = ([], ["Catalogue JSON must be a list of products."]) ∧
    (CS.run_compute p1 p2 (CS.FileOutcome.ok v) (CS.FileOutcome.ok sales)).totals
      = (CS.compute_total [] (CS.normalize_sales_record sales).1).1 := by
  have hbp : CS.build_price_map v = ([], ["Catalogue JSON must be a list of products."]) := by
    cases v
    case jlist l => exact (hv l rfl).elim
    case null => exact absurd hvn (by simp [JVal.isNull])
    all_goals rfl
  refine ⟨hbp, ?_⟩
  simp [CS.run_compute, CS.load_json, hvn, hsn, hbp]

theorem claim_C7_witness :
    CS.build_price_map (JVal.jint 5) = ([], ["Catalogue JSON must be a list of products."]) ∧
    (CS.run_compute "c.json" "s.json" (CS.FileOutcome.ok (JVal.jint 5))
        (CS.FileOutcome.ok (JVal.jlist []))).totals
      = (CS.compute_total [] (CS.normalize_sales_record (JVal.jlist [])).1).1 :=
  claim_C7_amended _ _ _ _ (fun _ h => JVal.noConfusion h) rfl rfl

set_option maxRecDepth 10000 in
/-- Claim C8 counterexample: the program accumulates the total in
binary64 floats, and float addition is not associative, so permuting
the sales rows CAN change the final total.  With catalogue prices
A = 1e16 and B = 1 (both exactly representable) and three quantity-1
rows, accumulating B, B, A gives 1.0000000000000002e16 while the
permutation A, B, B gives 1.0e16: each intermediate `+ 1` on 1e16 is
a round-to-even tie that is absorbed. -/
theorem claim_C8_counterexample :
    ([[("Product", JVal.jstr "B"), ("Quantity", JVal.jint 1)],
      [("Product", JVal.jstr "B"), ("Quantity", JVal.jint 1)],
      [("Product", JVal.jstr "A"), ("Quantity", JVal.jint 1)]] : List Row).Perm
      [[("Product", JVal.jstr "A"), ("Quantity", JVal.jint 1)],
       [("Product", JVal.jstr "B"), ("Quantity", JVal.jint 1)],
       [("Product", JVal.jstr "B"), ("Quantity", JVal.jint 1)]] ∧
    (CS.compute_total64 [("A", (10000000000000000 : ℚ)), ("B", 1)]
        [[("Product", JVal.jstr "B"), ("Quantity", JVal.jint 1)],
         [("Product", JVal.jstr "B"), ("Quantity", JVal.jint 1)],
         [("Product", JVal.jstr "A"), ("Quantity", JVal.jint 1)]]).1.total
      ≠ (CS.compute_total64 [("A", (10000000000000000 : ℚ)), ("B", 1)]
        [[("Product", JVal.jstr "A"), ("Quantity", JVal.jint 1)],
         [("Product", JVal.jstr "B"), ("Quantity", JVal.jint 1)],
         [("Product", JVal.jstr "B"), ("Quantity", JVal.jint 1)]]).1.total := by
  constructor
  · exact (List.Perm.cons _ (List.Perm.swap _ _ [])).trans (List.Perm.swap _ _ _)
  · decide

/-- Claim C8 amended: in exact arithmetic the final total is the sum of
`price * qty` over accepted rows, with each contribution independent of
its row position, so reordering the sales rows leaves the exact total
unchanged.  (The implementation accumulates binary64 floats; with
rounding after every addition the total is not permutation-invariant —
see the counterexample with prices 1e16 and 1 — so the invariance holds
for the exact value, and for the computed value exactly when no
intermediate rounding differs, not in general.) -/
theorem claim_C8 (pm : PriceMap) (rows rows' : List Row) (h : rows.Perm rows') :
    (CS.compute_total pm rows).1.total = (rows.map (CS.rowContrib pm)).sum ∧
    (CS.compute_total pm rows).1.total = (CS.compute_total pm rows').1.total := by
  have h1 := (CS.computeLoop_spec pm rows 1 0 0 0 0 []).1
  have h2 := (CS.computeLoop_spec pm rows' 1 0 0 0 0 []).1
  constructor
  · show (CS.computeLoop pm rows 1 0 0 0 0 []).1.total = _
    rw [h1, zero_add]
  · show (CS.computeLoop pm rows 1 0 0 0 0 []).1.total
        = (CS.computeLoop pm rows' 1 0 0 0 0 []).1.total
    rw [h1, h2, zero_add, zero_add]
    exact (h.map (CS.rowContrib pm)).sum_eq

theorem claim_C8_witness :
    (CS.compute_total [("Pen", (3 : ℚ)/2)]
        [[("Product", JVal.jstr "Pen"), ("Quantity", JVal.jint 1)],
         [("Product", JVal.jstr "Pen"), ("Quantity", JVal.jint 2)]]).1.total
      = (CS.compute_total [("Pen", (3 : ℚ)/2)]
        [[("Product", JVal.jstr "Pen"), ("Quantity", JVal.jint 2)],
         [("Product", JVal.jstr "Pen"), ("Quantity", JVal.jint 1)]]).1.total :=
  (claim_C8 _ _ _ (List.Perm.swap _ _ [])).2

/-- Claim C9: when several catalogue entries share the same trimmed title, the
built price map holds the price of the last accepted such entry, in both
variants. -/
theorem claim_C9 (pre post : List JVal) (e : JVal) (t : String) (p : ℚ)
    (he : CS.entryBinding e = some (t, p))
    (hpost : ∀ e' ∈ post, ∀ v, CS.entryBinding e' ≠ some (t, v)) :
    pmLookup (CS.build_price_map (JVal.jlist (pre ++ e :: post))).1 t = some p ∧
    (∀ r, Camel.build_catalogue_map (JVal.jlist (pre ++ e :: post)) = Except.ok r →
        pmLookup r.1 t = some p) := by
  have hkey : ((post.filterMap CS.entryBinding).reverse).lookup t = none := by
    apply lookup_eq_none_of_keys
    intro x hx hxt
    rw [List.mem_reverse, List.mem_filterMap] at hx
    obtain ⟨a, ha, hfa⟩ := hx
    exact hpost a ha x.2 (by rw [hfa, ← hxt])
  have core : (((pre ++ e :: post).filterMap CS.entryBinding).reverse).lookup t = some p := by
    rw [List.filterMap_append]
    have hcons : (e :: post).filterMap CS.entryBinding
        = (t, p) :: post.filterMap CS.entryBinding := by
      rw [List.filterMap_cons, he]
    rw [hcons, List.reverse_append, List.reverse_cons, lookup_append, lookup_append, hkey]
    simp [List.lookup]
  constructor
  · show ((CS.build_price_map (JVal.jlist (pre ++ e :: post))).1).lookup t = some p
    rw [CS.build_price_map_eq]
    exact core
  · intro r hr
    show (r.1).lookup t = some p
    rw [Camel.build_catalogue_map_fst _ r hr]
    exact core

theorem claim_C9_witness :
    pmLookup (CS.build_price_map (JVal.jlist
      [JVal.jobj [("title", JVal.jstr "Pen"), ("price", JVal.jfloat (3/2))],
       JVal.jobj [("title", JVal.jstr "Pen"), ("price", JVal.jfloat (5/2))],
       JVal.jobj [("title", JVal.jstr "Ink"), ("price", JVal.jint 3)]])).1 "Pen"
      = some (5/2) := by
  have h := claim_C9 [JVal.jobj [("title", JVal.jstr "Pen"), ("price", JVal.jfloat (3/2))]]
    [JVal.jobj [("title", JVal.jstr "Ink"), ("price", JVal.jint 3)]]
    (JVal.jobj [("title", JVal.jstr "Pen"), ("price", JVal.jfloat (5/2))])
    "Pen" (5/2) (by decide) ?_
  · exact h.1
  · intro e' he' v hc
    simp only [List.mem_singleton] at he'
    subst he'
    have hev : CS.entryBinding (JVal.jobj [("title", JVal.jstr "Ink"), ("price", JVal.jint 3)])
        = some ("Ink", (3 : ℚ)) := by decide
    rw [hev] at hc
    injection hc with hc1
    injection hc1 with hc2 _
    exact absurd hc2 (by decide)

/-- Claim C10: an empty warning from `_validate_row` guarantees the returned
product key is present in the price map, so the unguarded aggregator
`price_map[key]` lookup on accepted rows can never fail. -/
theorem claim_C10 (idx : Nat) (row : Row) (pm : PriceMap)
    (h : (CS.validate_row idx row pm).2.2 = "") :
    (pmLookup pm (CS.validate_row idx row pm).1).isSome = true := by
  cases ho : CS.rowOutcome pm row with
  | none => exact absurd h (CS.validate_row_reject idx row pm ho)
  | some kq =>
    obtain ⟨k, q⟩ := kq
    have hm := (CS.validate_row_master idx row pm).1 k q ho
    rw [hm.1]
    exact hm.2.2

theorem claim_C10_witness :
    (CS.validate_row 1 [("Product", JVal.jstr "Pen"), ("Quantity", JVal.jint 3)]
        [("Pen", (3 : ℚ)/2)]).2.2 = "" ∧
    (pmLookup [("Pen", (3 : ℚ)/2)]
        (CS.validate_row 1 [("Product", JVal.jstr "Pen"), ("Quantity", JVal.jint 3)]
          [("Pen", (3 : ℚ)/2)]).1).isSome = true :=
  ⟨by decide, claim_C10 1 _ _ (by decide)⟩

end SalesSpec
